import Mathlib

/-!
Shallow embedding of the AI Adoption Dashboard client (React components
`Dashboard`, `MetricsPage`, `UsersPage`, and the `AnimatedCounter` helper)
and proofs about its refresh/fetch behaviour.

Conventions of the embedding:
* A JSON payload whose content the fetch logic never inspects is abstracted
  by a simple carrier type (`TrendsData`, `MetricsData`).
* A sub-request outcome is `Option α`: `some v` is a fulfilled HTTP response
  with payload `v`, `none` is a rejected request (network/server error).
* `await Promise.all([...])` over two or three requests is `promiseAll2` /
  `promiseAll3`: it yields the tuple of payloads exactly when every request
  fulfilled, and the enclosing `try` block then runs the `setX` commits;
  otherwise control moves to `catch` (which only logs) and `finally`.
* React `useState` cells of one component are gathered into a state
  structure; a `setX(v)` call is a functional update of that structure.
* Machine timestamps (`new Date()`, `settleTime`) are naturals; the exact
  real-number arithmetic of `AnimatedCounter` is carried out in `ℚ`.
-/

/-- The `/dashboard/summary` response, restricted to the fields the embedded
code reads (`total_users`, `l5_count`, `weekly_active_users`); the remaining
counters play no role in any verified property. -/
structure SummaryData where
  total_users : ℕ
  l5_count : ℕ
  weekly_active_users : ℕ
deriving DecidableEq, Repr

/-- The `/dashboard/trends` response: an opaque array of trend points,
abstracted by identifiers. -/
abbrev TrendsData := List ℕ

/-- `useState` cells of the `Dashboard` component:
`summary` (initially `null`), `trends` (initially `[]`), `loading`
(initially `true`), `lastUpdated` (initially the mount time) and
`refreshing` (initially `false`). -/
structure DashState where
  summary : Option SummaryData
  trends : TrendsData
  loading : Bool
  lastUpdated : ℕ
  refreshing : Bool
deriving DecidableEq, Repr

/-- The `Dashboard` state right after mounting at time `mountTime`. -/
def dashInit (mountTime : ℕ) : DashState :=
  { summary := none, trends := [], loading := true,
    lastUpdated := mountTime, refreshing := false }

/-- `await Promise.all([a, b])` as seen by the `try` block: the pair of
payloads when both requests fulfilled, `none` (jump to `catch`) otherwise. -/
def promiseAll2 {α β : Type} (a : Option α) (b : Option β) : Option (α × β) :=
  match a, b with
  | some x, some y => some (x, y)
  | _, _ => none

/-- `Dashboard.fetchData` from the `await` onwards: on success commit
`setSummary`, `setTrends`, `setLastUpdated(new Date())`; on any failure run
`catch` (log only); in both cases `finally` runs `setLoading(false)` and
`setRefreshing(false)`. -/
def fetchDataComplete (st : DashState) (summaryRes : Option SummaryData)
    (trendsRes : Option TrendsData) (now : ℕ) : DashState :=
  match promiseAll2 summaryRes trendsRes with
  | some (s, t) =>
      { st with summary := some s, trends := t, lastUpdated := now,
                loading := false, refreshing := false }
  | none => { st with loading := false, refreshing := false }

/-- The synchronous part of `Dashboard.handleRefresh`: `setRefreshing(true)`
before `fetchData()` is invoked. -/
def handleRefreshStart (st : DashState) : DashState :=
  { st with refreshing := true }

/-- Observable events of one `Dashboard` lifetime, in the order the single
event loop processes them.  A cycle start is the synchronous prefix of a
`fetchData()` invocation (mount effect, `setInterval` tick, or the refresh
button); `complete id sRes tRes now` is the resumption of cycle `id` when
its `Promise.all` settles.  `id` records which invocation resumes; the code
itself never consults it. -/
inductive DashEvent where
  | startMount
  | startTimer
  | startUser
  | complete (id : ℕ) (summaryRes : Option SummaryData)
      (trendsRes : Option TrendsData) (now : ℕ)
deriving DecidableEq, Repr

/-- One event against `Dashboard` state.  `fetchData` performs no state
update before its `await`, so `startMount`/`startTimer` are identity;
`startUser` is `handleRefreshStart`; a completion runs `fetchDataComplete`
unconditionally — the source has no sequence-number or supersession check. -/
def dashStep (st : DashState) : DashEvent → DashState
  | .startMount => st
  | .startTimer => st
  | .startUser => handleRefreshStart st
  | .complete _ sRes tRes now => fetchDataComplete st sRes tRes now

/-- A whole event sequence against `Dashboard` state. -/
def dashRun (st : DashState) (evs : List DashEvent) : DashState :=
  evs.foldl dashStep st

/-- One sub-request of a fetch cycle: its outcome and the time at which it
reaches its terminal state (fulfilled or rejected). -/
structure SubReq (α : Type) where
  result : Option α
  settleTime : ℕ
deriving DecidableEq, Repr

/-- The payload `Promise.all([a, b])` delivers (its outcome only). -/
def promiseAll2Result {α β : Type} (a : SubReq α) (b : SubReq β) :
    Option (α × β) :=
  promiseAll2 a.result b.result

/-- The time at which `Promise.all([a, b])` settles: when both requests
fulfil it fulfils once the slower one does; it rejects at the moment the
first rejection arrives, regardless of whether the other request has
reached a terminal state yet. -/
def promiseAll2SettleTime {α β : Type} (a : SubReq α) (b : SubReq β) : ℕ :=
  match a.result, b.result with
  | some _, some _ => max a.settleTime b.settleTime
  | none, some _ => a.settleTime
  | some _, none => b.settleTime
  | none, none => min a.settleTime b.settleTime

/-- The kind of trigger that started a fetch cycle. -/
inductive Trig where
  | mount
  | timer
  | user
deriving DecidableEq, Repr

/-- Events against the `Dashboard` refresh scheduler (the `useEffect` with
`setInterval`/`clearInterval` plus the refresh button): the view mounts, the
host timer fires, the view unmounts, or the user presses Refresh. -/
inductive SchedEvent where
  | mountView
  | timerTick
  | unmountView
  | refreshClick
deriving DecidableEq, Repr

/-- Scheduler state: whether the repeating interval registered on mount is
still active (`clearInterval` not yet run), and the log of fetch-cycle
starts with their triggers. -/
structure SchedState where
  intervalActive : Bool
  starts : List Trig
deriving DecidableEq, Repr

/-- The scheduler's reaction to one event.  Mounting runs the effect body:
`fetchData()` immediately (a `mount` start) and `setInterval(fetchData,
30000)` (interval becomes active).  A host timer tick invokes the callback
only while the interval has not been cleared.  Unmounting runs the cleanup
`() => clearInterval(interval)`.  The refresh button always starts a
cycle. -/
def schedStep (s : SchedState) : SchedEvent → SchedState
  | .mountView => { intervalActive := true, starts := s.starts ++ [Trig.mount] }
  | .timerTick =>
      if s.intervalActive then { s with starts := s.starts ++ [Trig.timer] }
      else s
  | .unmountView => { s with intervalActive := false }
  | .refreshClick => { s with starts := s.starts ++ [Trig.user] }

/-- A whole event sequence against the scheduler. -/
def schedRun (s : SchedState) (evs : List SchedEvent) : SchedState :=
  evs.foldl schedStep s

/-- The literal period of `setInterval(fetchData, 30000)`. -/
def refreshPeriodMs : ℕ := 30000

/-- The host time of the `k`-th interval callback after mount at time 0:
`setInterval` first fires one period after registration. -/
def tickTime (k : ℕ) : ℕ := (k + 1) * refreshPeriodMs

/-- One `/metrics/{adoption|productivity|quality}` response: an opaque
`{summary, trends}` payload, abstracted by an identifier. -/
abbrev MetricsData := ℕ

/-- `useState` cells of the `MetricsPage` component that the fetch logic
touches (the three per-tab payloads, `loading`, `refreshing`). -/
structure MetricsState where
  adoption : Option MetricsData
  productivity : Option MetricsData
  quality : Option MetricsData
  loading : Bool
  refreshing : Bool
deriving DecidableEq, Repr

/-- `MetricsPage` state right after mounting. -/
def metricsInit : MetricsState :=
  { adoption := none, productivity := none, quality := none,
    loading := true, refreshing := false }

/-- `await Promise.all([a, b, c])` over three requests. -/
def promiseAll3 {α β γ : Type} (a : Option α) (b : Option β) (c : Option γ) :
    Option (α × β × γ) :=
  match a, b, c with
  | some x, some y, some z => some (x, y, z)
  | _, _, _ => none

/-- The synchronous prefix of `MetricsPage.fetchMetrics`: inside `try`,
before the `await`, it runs `setLoading(true)` and `setRefreshing(true)` —
on every invocation, first load and refreshes alike. -/
def fetchMetricsStart (st : MetricsState) : MetricsState :=
  { st with loading := true, refreshing := true }

/-- `MetricsPage.fetchMetrics` from the `await` onwards: commit the three
payloads when all succeed, otherwise `catch` logs; `finally` clears both
flags. -/
def fetchMetricsComplete (st : MetricsState) (a p q : Option MetricsData) :
    MetricsState :=
  match promiseAll3 a p q with
  | some (x, y, z) =>
      { st with adoption := some x, productivity := some y, quality := some z,
                loading := false, refreshing := false }
  | none => { st with loading := false, refreshing := false }

/-- A whole `fetchMetrics` cycle run to completion with the given
sub-request outcomes. -/
def fetchMetrics (st : MetricsState) (a p q : Option MetricsData) :
    MetricsState :=
  fetchMetricsComplete (fetchMetricsStart st) a p q

/-- A JavaScript string, as a list of characters. -/
abbrev JsStr := List Char

/-- `s.toLowerCase()`. -/
def jsToLower (s : JsStr) : JsStr := s.map Char.toLower

/-- `hay.includes(sub)`: `sub` occurs contiguously inside `hay`. -/
def jsIncludes (hay sub : JsStr) : Bool := decide (sub <:+: hay)

/-- `x || ''` applied to a possibly-absent string field. -/
def orEmpty (o : Option JsStr) : JsStr := o.getD []

/-- A `/users` record, restricted to the fields the search filter reads;
`email` and `team` are nullable in the API. -/
structure UserRec where
  github_username : JsStr
  email : Option JsStr
  team : Option JsStr
deriving DecidableEq, Repr

/-- `useState` cells of the `UsersPage` component that the fetch logic
touches (`users`, `loading`, `refreshing`). -/
structure UsersState where
  users : List UserRec
  loading : Bool
  refreshing : Bool
deriving DecidableEq, Repr

/-- `UsersPage` state right after mounting. -/
def usersInit : UsersState :=
  { users := [], loading := true, refreshing := false }

/-- The synchronous prefix of `UsersPage.fetchUsers`: inside `try` it runs
`setLoading(true)` and `setRefreshing(true)` on every invocation. -/
def fetchUsersStart (st : UsersState) : UsersState :=
  { st with loading := true, refreshing := true }

/-- `UsersPage.fetchUsers` from the `await` onwards: `setUsers(res.data)` on
success, `catch` logs on failure, `finally` clears both flags. -/
def fetchUsersComplete (st : UsersState) (res : Option (List UserRec)) :
    UsersState :=
  match res with
  | some data => { st with users := data, loading := false, refreshing := false }
  | none => { st with loading := false, refreshing := false }

/-- A whole `fetchUsers` cycle run to completion. -/
def fetchUsers (st : UsersState) (res : Option (List UserRec)) : UsersState :=
  fetchUsersComplete (fetchUsersStart st) res

/-- The per-user predicate of `UsersPage.filteredUsers`: the lowercased
search is a substring of the lowercased username, email (`|| ''`) or team
(`|| ''`). -/
def matchesSearch (u : UserRec) (search : JsStr) : Bool :=
  jsIncludes (jsToLower u.github_username) (jsToLower search) ||
  jsIncludes (jsToLower (orEmpty u.email)) (jsToLower search) ||
  jsIncludes (jsToLower (orEmpty u.team)) (jsToLower search)

/-- `UsersPage.filteredUsers`: `users.filter(...)` under the search term. -/
def filteredUsers (users : List UserRec) (search : JsStr) : List UserRec :=
  users.filter (fun u => matchesSearch u search)

/-- `const totalUsers = summary?.total_users || 1` of the `Dashboard`
render: `1` when the summary is absent or its total is the falsy `0`. -/
def totalUsers (summary : Option SummaryData) : ℕ :=
  match summary with
  | some s => if s.total_users = 0 then 1 else s.total_users
  | none => 1

/-- The L5-share figure `(summary?.l5_count / totalUsers) * 100` of the
`Dashboard` metric card, in exact arithmetic. -/
def l5SharePct (s : SummaryData) : ℚ :=
  (s.l5_count : ℚ) / (totalUsers (some s) : ℚ) * 100

/-- The maturity progress-fill width `(level.count / totalUsers) * 100`,
where `count` is the (`|| 0`-guarded) per-level counter. -/
def maturityWidthPct (count : ℕ) (summary : Option SummaryData) : ℚ :=
  (count : ℚ) / (totalUsers summary : ℚ) * 100

/-- `AnimatedCounter`'s per-tick increment `end / (duration / 16)`. -/
def counterIncrement (e d : ℚ) : ℚ := e / (d / 16)

/-- The `AnimatedCounter` effect's mutable picture: the closure variable
`current`, the displayed `count` state, and whether the `setInterval` timer
is still registered. -/
structure CounterState where
  current : ℚ
  count : ℚ
  timerActive : Bool
deriving DecidableEq, Repr

/-- `AnimatedCounter` right after the effect body ran: `current = 0`,
displayed count `0`, timer registered. -/
def counterInit : CounterState :=
  { current := 0, count := 0, timerActive := true }

/-- One interval callback of `AnimatedCounter`: if the timer was already
cleared nothing runs; otherwise `current += increment`, and either
`current >= end` (set the display to exactly `end`, `clearInterval`) or not
(display the running value). -/
def counterTick (e incr : ℚ) (s : CounterState) : CounterState :=
  if s.timerActive then
    let cur := s.current + incr
    if e ≤ cur then { current := cur, count := e, timerActive := false }
    else { current := cur, count := cur, timerActive := true }
  else s

/-- `AnimatedCounter` for target `e` and duration `d` after `n` ticks. -/
def counterRun (e d : ℚ) : ℕ → CounterState
  | 0 => counterInit
  | n + 1 => counterTick e (counterIncrement e d) (counterRun e d n)

/-! ## Theorems -/

/-- C1 counterexample: two cycles on the same mounted `Dashboard`, cycle 1
started (timer) before cycle 2 (user refresh); cycle 2 completes first and
commits its snapshot, then cycle 1's later completion also commits — the
stale result is not discarded and overwrites cycle 2's committed snapshot. -/
theorem dashboard_stale_overwrite_counterexample :
    (dashRun (dashInit 0)
      [DashEvent.startTimer, DashEvent.startUser,
       DashEvent.complete 2 (some ⟨20, 2, 9⟩) (some [2]) 5,
       DashEvent.complete 1 (some ⟨10, 1, 4⟩) (some [1]) 9]).summary
      = some ⟨10, 1, 4⟩ ∧
    (⟨10, 1, 4⟩ : SummaryData) ≠ ⟨20, 2, 9⟩ := by
  constructor
  · rfl
  · decide

/-- C1 (amended): the coordinator performs no supersession check — whichever
successful completion the event loop processes last commits its snapshot,
regardless of which cycle started first and of everything committed before
it. -/
theorem dashboard_last_completion_wins :
    ∀ (st : DashState) (evs : List DashEvent) (id : ℕ) (s : SummaryData)
      (t : TrendsData) (n : ℕ),
      (dashRun st (evs ++ [DashEvent.complete id (some s) (some t) n])).summary
          = some s ∧
      (dashRun st (evs ++ [DashEvent.complete id (some s) (some t) n])).trends
          = t ∧
      (dashRun st (evs ++ [DashEvent.complete id (some s) (some t) n])).lastUpdated
          = n := by
  intro st evs id s t n
  unfold dashRun
  rw [List.foldl_append]
  simp [dashStep, fetchDataComplete, promiseAll2]

/-- C2: a fetch cycle in which any sub-request fails commits nothing — the
Dashboard snapshot (`summary`, `trends`), the MetricsPage per-tab payloads
and the UsersPage list are exactly what they were before the cycle. -/
theorem fetch_failure_preserves_snapshot :
    ∀ (st : DashState) (sRes : Option SummaryData) (tRes : Option TrendsData)
      (now : ℕ) (ms : MetricsState) (a p q : Option MetricsData)
      (us : UsersState),
      ((sRes = none ∨ tRes = none) →
        (fetchDataComplete st sRes tRes now).summary = st.summary ∧
        (fetchDataComplete st sRes tRes now).trends = st.trends) ∧
      ((a = none ∨ p = none ∨ q = none) →
        (fetchMetrics ms a p q).adoption = ms.adoption ∧
        (fetchMetrics ms a p q).productivity = ms.productivity ∧
        (fetchMetrics ms a p q).quality = ms.quality) ∧
      (fetchUsers us none).users = us.users := by
  intro st sRes tRes now ms a p q us
  refine ⟨?_, ?_, ?_⟩
  · intro h
    cases sRes <;> cases tRes <;>
      simp_all [fetchDataComplete, promiseAll2]
  · intro h
    cases a <;> cases p <;> cases q <;>
      simp_all [fetchMetrics, fetchMetricsStart, fetchMetricsComplete,
        promiseAll3]
  · simp [fetchUsers, fetchUsersStart, fetchUsersComplete]

/-- C3 counterexample: on `MetricsPage`, after a fully successful first
fetch cycle (loading has gone false), a later refresh invocation of
`fetchMetrics` sets `loading` to `true` again — `isLoading` is not true
exactly once per view lifetime. -/
theorem metrics_refresh_sets_loading_again_counterexample :
    (fetchMetrics metricsInit (some 1) (some 2) (some 3)).loading = false ∧
    (fetchMetricsStart
        (fetchMetrics metricsInit (some 1) (some 2) (some 3))).loading
      = true := by
  constructor <;> rfl

/-- C3 (amended): `Dashboard`'s `loading` is true from creation until the
first terminal cycle and — once false — is never set true again by any
later event; but `MetricsPage` and `UsersPage` set `loading` to true at the
start of every fetch cycle (refreshes included) and to false at each
terminal outcome. -/
theorem loading_flag_behavior :
    ∀ (m : ℕ) (st : DashState) (evs : List DashEvent) (sRes : Option SummaryData)
      (tRes : Option TrendsData) (now : ℕ) (ms : MetricsState)
      (a p q : Option MetricsData) (us : UsersState)
      (r : Option (List UserRec)),
      (dashInit m).loading = true ∧
      (fetchDataComplete st sRes tRes now).loading = false ∧
      (st.loading = false → (dashRun st evs).loading = false) ∧
      (fetchMetricsStart ms).loading = true ∧
      (fetchMetricsComplete ms a p q).loading = false ∧
      (fetchUsersStart us).loading = true ∧
      (fetchUsersComplete us r).loading = false := by
  intro m st evs sRes tRes now ms a p q us r
  refine ⟨rfl, ?_, ?_, rfl, ?_, rfl, ?_⟩
  · cases sRes <;> cases tRes <;> simp [fetchDataComplete, promiseAll2]
  · induction evs generalizing st with
    | nil => intro h; simpa [dashRun] using h
    | cons e evs ih =>
        intro h
        have hstep : (dashStep st e).loading = false := by
          cases e with
          | startMount => simpa [dashStep] using h
          | startTimer => simpa [dashStep] using h
          | startUser => simpa [dashStep, handleRefreshStart] using h
          | complete id sRes tRes now =>
              cases sRes <;> cases tRes <;>
                simp [dashStep, fetchDataComplete, promiseAll2]
        simpa [dashRun] using ih (dashStep st e) hstep
  · cases a <;> cases p <;> cases q <;>
      simp [fetchMetricsComplete, promiseAll3]
  · cases r <;> simp [fetchUsersComplete]

/-- C4 counterexample: a timer-triggered (hence non-first) `Dashboard`
cycle never sets `refreshing`: after the mount cycle completed and the
timer trigger started a second cycle, `refreshing` is still `false`. -/
theorem dashboard_timer_refreshing_counterexample :
    (dashRun (dashInit 0)
      [DashEvent.startMount,
       DashEvent.complete 1 (some ⟨40, 6, 25⟩) (some [7]) 3,
       DashEvent.startTimer]).refreshing = false := by
  rfl

/-- C4 (amended): `Dashboard` sets `refreshing` only for user-triggered
refreshes (true at the button press, false again in every cycle's
`finally`); mount- and timer-triggered cycles leave it untouched.
`MetricsPage` and `UsersPage` instead set `refreshing` true at the start of
every cycle — the first included — and false at its end. -/
theorem refreshing_flag_behavior :
    ∀ (m : ℕ) (st : DashState) (sRes : Option SummaryData)
      (tRes : Option TrendsData) (now : ℕ) (ms : MetricsState)
      (a p q : Option MetricsData) (us : UsersState)
      (r : Option (List UserRec)),
      (dashInit m).refreshing = false ∧
      (dashStep st DashEvent.startUser).refreshing = true ∧
      (dashStep st DashEvent.startTimer).refreshing = st.refreshing ∧
      (dashStep st DashEvent.startMount).refreshing = st.refreshing ∧
      (fetchDataComplete st sRes tRes now).refreshing = false ∧
      (fetchMetricsStart ms).refreshing = true ∧
      (fetchMetricsComplete ms a p q).refreshing = false ∧
      (fetchUsersStart us).refreshing = true ∧
      (fetchUsersComplete us r).refreshing = false := by
  intro m st sRes tRes now ms a p q us r
  refine ⟨rfl, rfl, rfl, rfl, ?_, rfl, ?_, rfl, ?_⟩
  · cases sRes <;> cases tRes <;> simp [fetchDataComplete, promiseAll2]
  · cases a <;> cases p <;> cases q <;>
      simp [fetchMetricsComplete, promiseAll3]
  · cases r <;> simp [fetchUsersComplete]

/-- C5 counterexample: with the summary request rejecting at time 1 while
the trends request is still pending until time 9, `Promise.all` settles
(rejects) already at time 1 — the cycle proceeds to its failure path while
a sub-request is still pending, instead of waiting for every sub-request's
terminal state. -/
theorem promise_all_rejects_while_pending_counterexample :
    promiseAll2SettleTime (⟨none, 1⟩ : SubReq SummaryData)
        (⟨some [3], 9⟩ : SubReq TrendsData) = 1 ∧
    promiseAll2Result (⟨none, 1⟩ : SubReq SummaryData)
        (⟨some [3], 9⟩ : SubReq TrendsData) = none ∧
    (1 : ℕ) < 9 := by
  refine ⟨rfl, rfl, by decide⟩

/-- C5 (amended): `Promise.all` commits only the full tuple and, on the
success path, settles only once the slower sub-request has — but on
failure it settles at the moment of the first rejection (possibly while the
other sub-request is still pending), and a failed cycle commits nothing. -/
theorem promise_all_settle_behavior :
    ∀ (x : SummaryData) (y : TrendsData) (ta tb : ℕ) (st : DashState) (n : ℕ),
      promiseAll2SettleTime (⟨some x, ta⟩ : SubReq SummaryData)
          (⟨some y, tb⟩ : SubReq TrendsData) = max ta tb ∧
      ta ≤ promiseAll2SettleTime (⟨some x, ta⟩ : SubReq SummaryData)
          (⟨some y, tb⟩ : SubReq TrendsData) ∧
      tb ≤ promiseAll2SettleTime (⟨some x, ta⟩ : SubReq SummaryData)
          (⟨some y, tb⟩ : SubReq TrendsData) ∧
      promiseAll2Result (⟨some x, ta⟩ : SubReq SummaryData)
          (⟨some y, tb⟩ : SubReq TrendsData) = some (x, y) ∧
      promiseAll2SettleTime (⟨none, ta⟩ : SubReq SummaryData)
          (⟨some y, tb⟩ : SubReq TrendsData) = ta ∧
      promiseAll2SettleTime (⟨some x, ta⟩ : SubReq SummaryData)
          (⟨none, tb⟩ : SubReq TrendsData) = tb ∧
      promiseAll2SettleTime (⟨none, ta⟩ : SubReq SummaryData)
          (⟨none, tb⟩ : SubReq TrendsData) = min ta tb ∧
      fetchDataComplete st none (some y) n
        = { st with loading := false, refreshing := false } := by
  intro x y ta tb st n
  refine ⟨rfl, Nat.le_max_left _ _, Nat.le_max_right _ _, rfl, rfl, rfl, rfl, rfl⟩

/-- C6: `Dashboard`'s failure path only clears both flags — snapshot and
`lastUpdated` stay untouched — and `lastUpdated` moves only when a cycle
fully succeeded (in which case it becomes that cycle's commit time). -/
theorem fetch_failure_frame :
    ∀ (st : DashState) (sRes : Option SummaryData) (tRes : Option TrendsData)
      (now : ℕ),
      ((sRes = none ∨ tRes = none) →
        fetchDataComplete st sRes tRes now
          = { st with loading := false, refreshing := false }) ∧
      ((fetchDataComplete st sRes tRes now).lastUpdated ≠ st.lastUpdated →
        ∃ s t, sRes = some s ∧ tRes = some t ∧
          (fetchDataComplete st sRes tRes now).lastUpdated = now) := by
  intro st sRes tRes now
  constructor
  · intro h
    cases sRes <;> cases tRes <;>
      simp_all [fetchDataComplete, promiseAll2]
  · intro h
    cases sRes with
    | none => simp [fetchDataComplete, promiseAll2] at h
    | some s =>
        cases tRes with
        | none => simp [fetchDataComplete, promiseAll2] at h
        | some t => exact ⟨s, t, rfl, rfl, rfl⟩

/-- C8 counterexample: the zero-total case is guarded — with
`total_users = 0` the rendered denominator is `1`, and the L5-share
percentage is the well-defined value `l5_count * 100` (here `500`), not an
undefined quantity. -/
theorem zero_total_guard_counterexample :
    totalUsers (some ⟨0, 5, 0⟩) = 1 ∧
    l5SharePct ⟨0, 5, 0⟩ = 500 := by
  constructor
  · rfl
  · norm_num [l5SharePct, totalUsers]

/-- C8 (amended): the dashboard's L5-share and maturity-distribution
percentages do have a defined zero-denominator policy: the denominator is
`summary?.total_users || 1`, which is positive for every input (it is `1`
whenever the summary is absent or its total is `0`), so both percentages
are genuine divisions by a nonzero value. -/
theorem percentage_denominator_positive :
    ∀ (o : Option SummaryData) (s : SummaryData) (c : ℕ),
      0 < totalUsers o ∧
      (totalUsers o : ℚ) ≠ 0 ∧
      totalUsers (some { s with total_users := 0 }) = 1 ∧
      maturityWidthPct c o * (totalUsers o : ℚ) = (c : ℚ) * 100 ∧
      l5SharePct s * (totalUsers (some s) : ℚ) = (s.l5_count : ℚ) * 100 := by
  intro o s c
  have hpos : ∀ (o : Option SummaryData), 0 < totalUsers o := by
    intro o
    cases o with
    | none => simp [totalUsers]
    | some s =>
        by_cases h : s.total_users = 0 <;>
          simp [totalUsers, h, Nat.pos_of_ne_zero]
  have hQ : ∀ (o : Option SummaryData), (totalUsers o : ℚ) ≠ 0 := by
    intro o
    exact_mod_cast Nat.pos_iff_ne_zero.mp (hpos o)
  have hQo := hQ o
  have hQs := hQ (some s)
  refine ⟨hpos o, hQ o, rfl, ?_, ?_⟩
  · rw [maturityWidthPct]
    field_simp
  · rw [l5SharePct]
    field_simp

/-- Once the interval has been cleared, no event sequence avoiding a
re-mount ever logs another timer-triggered cycle start, and the interval
stays cleared. -/
theorem schedRun_inactive_no_timer :
    ∀ (evs : List SchedEvent) (s : SchedState),
      s.intervalActive = false → SchedEvent.mountView ∉ evs →
      (schedRun s evs).starts.count Trig.timer = s.starts.count Trig.timer ∧
      (schedRun s evs).intervalActive = false := by
  intro evs
  induction evs with
  | nil => intro s h _; exact ⟨rfl, h⟩
  | cons e evs ih =>
      intro s h hm
      have hm2 : SchedEvent.mountView ∉ evs := fun hx =>
        hm (List.mem_cons_of_mem _ hx)
      have hrun : schedRun s (e :: evs) = schedRun (schedStep s e) evs := rfl
      cases e with
      | mountView => exact absurd (List.mem_cons_self _ _) hm
      | timerTick =>
          have hstep : schedStep s SchedEvent.timerTick = s := by
            simp [schedStep, h]
          rw [hrun, hstep]
          exact ih s h hm2
      | unmountView =>
          rw [hrun]
          exact ih _ rfl hm2
      | refreshClick =>
          rw [hrun]
          have hstep : schedStep s SchedEvent.refreshClick
              = { s with starts := s.starts ++ [Trig.user] } := rfl
          rw [hstep]
          have := ih { s with starts := s.starts ++ [Trig.user] } h hm2
          refine ⟨?_, this.2⟩
          rw [this.1]
          simp [List.count_append]
  

/-- C7: the scheduler starts a fetch cycle on mount, registers the repeating
interval with the fixed 30000 ms period (consecutive callback times are one
period apart), starts a timer cycle on every tick while the interval is
active, and the unmount cleanup clears the interval, after which no event
sequence without a re-mount ever starts another timer-triggered cycle. -/
theorem scheduler_mount_period_unmount :
    ∀ (s : SchedState) (evs : List SchedEvent) (k : ℕ),
      (schedStep s SchedEvent.mountView).starts = s.starts ++ [Trig.mount] ∧
      (schedStep s SchedEvent.mountView).intervalActive = true ∧
      (s.intervalActive = true →
        (schedStep s SchedEvent.timerTick).starts = s.starts ++ [Trig.timer]) ∧
      refreshPeriodMs = 30000 ∧
      tickTime (k + 1) - tickTime k = refreshPeriodMs ∧
      (schedStep s SchedEvent.unmountView).intervalActive = false ∧
      (SchedEvent.mountView ∉ evs →
        (schedRun (schedStep s SchedEvent.unmountView) evs).starts.count
            Trig.timer
          = s.starts.count Trig.timer) := by
  intro s evs k
  refine ⟨rfl, rfl, ?_, rfl, ?_, rfl, ?_⟩
  · intro h
    simp [schedStep, h]
  · simp only [tickTime, refreshPeriodMs]
    omega
  · intro hm
    exact (schedRun_inactive_no_timer evs _ rfl hm).1

/-- C9: the rendered user list is the source list filtered by the search
predicate: it is a subsequence of the full list (hence the footer's
`filtered ≤ total` count relation), the empty search leaves the list whole,
and membership holds exactly when the lowercased search occurs inside the
lowercased username, email (`|| ''`) or team (`|| ''`). -/
theorem filtered_users_spec :
    ∀ (users : List UserRec) (search : JsStr),
      (filteredUsers users search).Sublist users ∧
      (filteredUsers users search).length ≤ users.length ∧
      filteredUsers users [] = users ∧
      (∀ u, u ∈ filteredUsers users search ↔
        u ∈ users ∧
          (jsToLower search <:+: jsToLower u.github_username ∨
           jsToLower search <:+: jsToLower (orEmpty u.email) ∨
           jsToLower search <:+: jsToLower (orEmpty u.team))) := by
  intro users search
  refine ⟨List.filter_sublist users, List.length_filter_le _ users, ?_, ?_⟩
  · apply List.filter_eq_self.mpr
    intro u hu
    simp [matchesSearch, jsIncludes, jsToLower]
  · intro u
    simp [filteredUsers, List.mem_filter, matchesSearch, jsIncludes,
      jsToLower, or_assoc]

/-- Unfolding lemma: one more tick of the counter. -/
theorem counterRun_succ (e d : ℚ) (n : ℕ) :
    counterRun e d (n + 1)
      = counterTick e (counterIncrement e d) (counterRun e d n) := rfl

/-- A tick does nothing once the interval has been cleared. -/
theorem counterTick_inactive (e incr : ℚ) (s : CounterState)
    (h : s.timerActive = false) : counterTick e incr s = s := by
  simp [counterTick, h]

/-- While the timer is still active after `n` ticks, the closure variable
`current` equals `n` times the increment and (past the first tick) is still
below the target. -/
theorem counterRun_active_current (e d : ℚ) :
    ∀ n, (counterRun e d n).timerActive = true →
      (counterRun e d n).current = (n : ℚ) * counterIncrement e d ∧
      (0 < n → (counterRun e d n).current < e) := by
  intro n
  induction n with
  | zero =>
      intro _
      refine ⟨by simp [counterRun, counterInit], ?_⟩
      intro h
      exact absurd h (lt_irrefl 0)
  | succ n ih =>
      intro hA
      cases hP : (counterRun e d n).timerActive with
      | false =>
          rw [counterRun_succ, counterTick_inactive _ _ _ hP, hP] at hA
          exact absurd hA (by simp)
      | true =>
          obtain ⟨hcur, _⟩ := ih hP
          by_cases hle :
              e ≤ (counterRun e d n).current + counterIncrement e d
          · rw [counterRun_succ] at hA
            simp [counterTick, hP, hle] at hA
          · constructor
            · rw [counterRun_succ]
              simp only [counterTick, hP, if_true, hle, if_false]
              rw [hcur]
              push_cast
              ring
            · intro _
              rw [counterRun_succ]
              simp only [counterTick, hP, if_true, hle, if_false]
              exact lt_of_not_le hle

/-- Once the timer has been cleared, the displayed count is exactly the
target value. -/
theorem counterRun_inactive_count (e d : ℚ) :
    ∀ n, (counterRun e d n).timerActive = false → (counterRun e d n).count = e := by
  intro n
  induction n with
  | zero =>
      intro h
      exact absurd h (by simp [counterRun, counterInit])
  | succ n ih =>
      intro h
      cases hP : (counterRun e d n).timerActive with
      | false =>
          rw [counterRun_succ, counterTick_inactive _ _ _ hP]
          exact ih hP
      | true =>
          by_cases hle :
              e ≤ (counterRun e d n).current + counterIncrement e d
          · rw [counterRun_succ]
            simp [counterTick, hP, hle]
          · rw [counterRun_succ] at h
            simp [counterTick, hP, hle] at h

/-- Once the timer has been cleared, further ticks change nothing. -/
theorem counterRun_frozen (e d : ℚ) (n : ℕ)
    (h : (counterRun e d n).timerActive = false) :
    ∀ m, counterRun e d (n + m) = counterRun e d n := by
  intro m
  induction m with
  | zero => rfl
  | succ m ih =>
      have hnm : n + (m + 1) = (n + m) + 1 := by omega
      rw [hnm, counterRun_succ, ih, counterTick_inactive _ _ _ h]

/-- C10: for every target value (and any duration of at least one tick
frame, the source's fixed `duration = 1000` included), the `AnimatedCounter`
loop terminates: after finitely many ticks `current` reaches or exceeds the
target, at which point the displayed count is exactly the target, the
interval is cleared, and every further tick is a no-op. -/
theorem animated_counter_terminates :
    ∀ (e d : ℚ), 16 ≤ d →
      ∃ n, (counterRun e d n).timerActive = false ∧
        (counterRun e d n).count = e ∧
        ∀ m, counterRun e d (n + m) = counterRun e d n := by
  intro e d hd
  have hc0 : (0 : ℚ) < d / 16 := by
    apply div_pos (lt_of_lt_of_le (by norm_num) hd) (by norm_num)
  have hc1 : (1 : ℚ) ≤ d / 16 := by
    rw [le_div_iff₀ (by norm_num : (0 : ℚ) < 16)]
    linarith
  obtain ⟨N, hN0, hNk⟩ :
      ∃ N : ℕ, 0 < N ∧ e ≤ (N : ℚ) * counterIncrement e d := by
    by_cases he : e ≤ 0
    · refine ⟨1, one_pos, ?_⟩
      rw [counterIncrement]
      push_cast
      rw [one_mul, le_div_iff₀ hc0]
      nlinarith [mul_nonneg (neg_nonneg.mpr he) (sub_nonneg.mpr hc1)]
    · push_neg at he
      refine ⟨⌈d / 16⌉₊, Nat.ceil_pos.mpr hc0, ?_⟩
      have hle : d / 16 ≤ (⌈d / 16⌉₊ : ℚ) := Nat.le_ceil _
      have h1 : d / 16 * (e / (d / 16)) = e := by
        rw [mul_comm]
        exact div_mul_cancel₀ e (ne_of_gt hc0)
      calc e = d / 16 * (e / (d / 16)) := h1.symm
        _ ≤ (⌈d / 16⌉₊ : ℚ) * (e / (d / 16)) := by
            apply mul_le_mul_of_nonneg_right hle
            positivity
        _ = (⌈d / 16⌉₊ : ℚ) * counterIncrement e d := rfl
  have hInact : (counterRun e d N).timerActive = false := by
    cases hA : (counterRun e d N).timerActive with
    | false => rfl
    | true =>
        obtain ⟨hcur, hlt⟩ := counterRun_active_current e d N hA
        have hbelow := hlt hN0
        rw [hcur] at hbelow
        linarith
  exact ⟨N, hInact, counterRun_inactive_count e d N hInact,
    counterRun_frozen e d N hInact⟩

/-- C10 witness: at the source's own instantiation (`duration = 1000`) and
the concrete target `7`, the counter run terminates with the display pinned
to `7`. -/
theorem animated_counter_terminates_witness :
    (16 : ℚ) ≤ 1000 ∧
    ∃ n, (counterRun 7 1000 n).timerActive = false ∧
      (counterRun 7 1000 n).count = 7 ∧
      ∀ m, counterRun 7 1000 (n + m) = counterRun 7 1000 n :=
  ⟨by norm_num, animated_counter_terminates 7 1000 (by norm_num)⟩
